import Mathlib

/-!
# The UI bridge of gleam-pacman (`src/pacman/ui.ffi.mjs`)

The whole program is one exported JavaScript function:

    export function update_ui(score, lives, level, phase) {
      if (typeof window !== "undefined" && window.updateUI) {
        window.updateUI(score, lives, level, phase);
      }
    }

The embedding below follows the evaluation of that body step by step:
the `typeof` test on the global identifier `window`, the property read
`window.updateUI` and its conversion to a boolean, the second read of
`window.updateUI` for the call, the callability check of the call
expression, the call itself with `window` as receiver, and the return of
`undefined` when the body falls off its end.

Modelling decisions:
* the host is explicit state: the binding of `window`, what the property
  `updateUI` reads as on each value, and the remainder of the host state;
* in the first embedding `updateUI` is a data property: reading it has no
  effect and fails only on `null` or `undefined`; a second embedding of the
  same body (`update_ui_ops`) lets every read run host code that may throw or
  change the host;
* host functions are total state transformers handed in as a parameter
  (`CallSem`); they may change any part of the host and may throw;
* numbers are integers plus `NaN`; the bridge only forwards them and tests
  them for truthiness;
* every call expression the bridge evaluates is recorded in the outcome, so
  that *how often* and *with what* the handler is called can be stated.
-/

namespace Pacman.UI

/-- JavaScript values, as far as the bridge can tell them apart. `object` is an
ordinary non-callable object, `function` a callable one, `error` an `Error`
instance created by the engine (named by its constructor). -/
inductive Value where
  | undefined
  | null
  | bool (b : Bool)
  | num (n : Int)
  | nan
  | str (s : String)
  | bigint (n : Int)
  | symbol (id : Nat)
  | object (ref : Nat)
  | function (ref : Nat)
  | error (name : String)
  deriving DecidableEq, Repr

/-- The possible results of the `typeof` operator. -/
inductive TypeTag where
  | undefined
  | object
  | boolean
  | number
  | string
  | bigint
  | symbol
  | function
  deriving DecidableEq, Repr

/-- The `typeof` operator on a value. -/
def typeofValue : Value → TypeTag
  | .undefined => .undefined
  | .null => .object
  | .bool _ => .boolean
  | .num _ => .number
  | .nan => .number
  | .str _ => .string
  | .bigint _ => .bigint
  | .symbol _ => .symbol
  | .object _ => .object
  | .function _ => .function
  | .error _ => .object

/-- The abstract operation `ToBoolean`: the truthiness test that `&&` and `if`
apply to a value. -/
def toBoolean : Value → Bool
  | .undefined => false
  | .null => false
  | .bool b => b
  | .num n => n != 0
  | .nan => false
  | .str s => s != ""
  | .bigint n => n != 0
  | .symbol _ => true
  | .object _ => true
  | .function _ => true
  | .error _ => true

/-- The abstract operation `IsCallable`. -/
def isCallable : Value → Bool
  | .function _ => true
  | _ => false

/-- How the evaluation of an expression or of a function body ends: normally
with a value, or with a thrown value. -/
inductive Completion where
  | normal (v : Value)
  | thrown (e : Value)
  deriving DecidableEq, Repr

/-- The value a completion reports to the caller, if it reports one. -/
def Completion.returned : Completion → Option Value
  | .normal v => some v
  | .thrown _ => none

/-- Whether a completion is a raised error. -/
def Completion.failed : Completion → Bool
  | .normal _ => false
  | .thrown _ => true

/-- The host state the bridge runs in. `window` is the binding of the global
identifier `window` (`none` when the identifier does not resolve), `updateUI v`
is what the property read `v.updateUI` yields on a value `v` other than `null`
and `undefined` (`undefined` where there is no such property), and `rest` is
everything else the host owns. -/
structure Host (σ : Type) where
  window : Option Value
  updateUI : Value → Value
  rest : σ

/-- The behaviour of host functions: calling the function value `f` with
receiver `this` and an argument list in a host state ends in a completion and a
new host state. Only consulted for callable `f`. -/
abbrev CallSem (σ : Type) := Value → Value → List Value → Host σ → Completion × Host σ

/-- One evaluated call expression: the callee value, the receiver and the
argument list. -/
structure CallEvent where
  callee : Value
  thisArg : Value
  args : List Value
  deriving DecidableEq, Repr

/-- What one run of the bridge amounts to: how it completes, the host state it
leaves, and the call expressions it evaluated, in order. -/
structure Outcome (σ : Type) where
  completion : Completion
  host : Host σ
  calls : List CallEvent

/-- The calls of an outcome that reached a function: those whose callee is
callable. -/
def Outcome.invocations {σ : Type} (o : Outcome σ) : List CallEvent :=
  o.calls.filter (fun ev => isCallable ev.callee)

/-- The expression `typeof window`: `undefined` for an unresolvable
identifier, the type tag of the bound value otherwise. -/
def typeofWindow {σ : Type} (h : Host σ) : TypeTag :=
  match h.window with
  | none => .undefined
  | some v => typeofValue v

/-- The identifier expression `window`: its value, or a `ReferenceError` when
the identifier does not resolve. -/
def readWindow {σ : Type} (h : Host σ) : Completion :=
  match h.window with
  | none => .thrown (.error "ReferenceError")
  | some v => .normal v

/-- The property read `base.updateUI`: a `TypeError` on `null` and `undefined`,
the property value otherwise. -/
def getUpdateUI {σ : Type} (h : Host σ) (base : Value) : Completion :=
  match base with
  | .undefined => .thrown (.error "TypeError")
  | .null => .thrown (.error "TypeError")
  | v => .normal (h.updateUI v)

/-- The call expression `window.updateUI(score, lives, level, phase)` inside the
`if`: `window` is read, then its `updateUI`, then the callee is checked to be
callable (`TypeError` otherwise) and called with `window` as receiver. The
expression statement discards the value the call returns, and the function body
then ends without a `return`, which yields `undefined`. A throw of the callee
is passed on as it is. -/
def callUpdateUI {σ : Type} (call : CallSem σ) (h : Host σ)
    (score lives level phase : Value) : Outcome σ :=
  match readWindow h with
  | .thrown e => ⟨.thrown e, h, []⟩
  | .normal w =>
    match getUpdateUI h w with
    | .thrown e => ⟨.thrown e, h, []⟩
    | .normal f =>
      if isCallable f then
        match call f w [score, lives, level, phase] h with
        | (.normal _, h1) => ⟨.normal .undefined, h1, [⟨f, w, [score, lives, level, phase]⟩]⟩
        | (.thrown e, h1) => ⟨.thrown e, h1, [⟨f, w, [score, lives, level, phase]⟩]⟩
      else
        ⟨.thrown (.error "TypeError"), h, [⟨f, w, [score, lives, level, phase]⟩]⟩

/-- The exported function `update_ui(score, lives, level, phase)`.
The condition is `typeof window !== "undefined" && window.updateUI`: the right
operand is evaluated only when the left one is true, and its value is
converted with `ToBoolean`. When the condition is false the body ends at once
and the function returns `undefined`. -/
def update_ui {σ : Type} (call : CallSem σ) (h : Host σ)
    (score lives level phase : Value) : Outcome σ :=
  if typeofWindow h != .undefined then
    match readWindow h with
    | .thrown e => ⟨.thrown e, h, []⟩
    | .normal w =>
      match getUpdateUI h w with
      | .thrown e => ⟨.thrown e, h, []⟩
      | .normal t =>
        if toBoolean t then
          callUpdateUI call h score lives level phase
        else
          ⟨.normal .undefined, h, []⟩
  else
    ⟨.normal .undefined, h, []⟩

/-- The host context exists and exposes the value `f` under the name
`updateUI`: `window` is bound to a value `w` that has properties (neither
`undefined` nor `null`), and `w.updateUI` reads as `f`. -/
def Exposes {σ : Type} (h : Host σ) (w f : Value) : Prop :=
  h.window = some w ∧ w ≠ .undefined ∧ w ≠ .null ∧ h.updateUI w = f

/-- The host context is absent: `typeof window` is `undefined`, either because
the identifier does not resolve or because it is bound to `undefined`. -/
def WindowAbsent {σ : Type} (h : Host σ) : Prop :=
  typeofWindow h = .undefined

/-- A handler is present: the host context exists and its `updateUI` is
callable. -/
def handlerPresent {σ : Type} (h : Host σ) : Bool :=
  match h.window with
  | none => false
  | some .undefined => false
  | some .null => false
  | some w => isCallable (h.updateUI w)

/-- One argument tuple of `update_ui`. -/
structure Args where
  score : Value
  lives : Value
  level : Value
  phase : Value
  deriving DecidableEq, Repr

/-- The argument list a tuple is passed as. -/
def Args.toList (a : Args) : List Value :=
  [a.score, a.lives, a.level, a.phase]

/-- A caller that calls `update_ui` on each tuple of a list in sequence. Every
call of the sequence is made, each in the host state the previous one left;
the outcomes are collected in order. -/
def update_ui_seq {σ : Type} (call : CallSem σ) : List Args → Host σ → List (Outcome σ)
  | [], _ => []
  | a :: rest, h =>
    (update_ui call h a.score a.lives a.level a.phase) ::
      update_ui_seq call rest (update_ui call h a.score a.lives a.level a.phase).host

/-- A handler is present at every call of a sequence of calls. -/
def PresentThroughout {σ : Type} (call : CallSem σ) : List Args → Host σ → Prop
  | [], _ => True
  | a :: rest, h =>
    handlerPresent h = true ∧
      PresentThroughout call rest (update_ui call h a.score a.lives a.level a.phase).host

/-- All handler invocations of a sequence of outcomes, in order. -/
def recordedCalls {σ : Type} (os : List (Outcome σ)) : List CallEvent :=
  (os.map Outcome.invocations).flatten

/-- The optional capability of the design notes: a reference to a callable
together with the receiver it is called on. The capability of a bridge is an
`Option Capability`: bound (`some`) or unbound (`none`). -/
structure Capability where
  callee : Value
  receiver : Value
  deriving DecidableEq, Repr

/-- The bridge as the design notes model it: dispatch the four arguments to the
capability when it is bound, do nothing otherwise. -/
def update_ui_optional {σ : Type} (call : CallSem σ) (cap : Option Capability) (h : Host σ)
    (score lives level phase : Value) : Outcome σ :=
  match cap with
  | none => ⟨.normal .undefined, h, []⟩
  | some c =>
    match call c.callee c.receiver [score, lives, level, phase] h with
    | (.normal _, h1) =>
      ⟨.normal .undefined, h1, [⟨c.callee, c.receiver, [score, lives, level, phase]⟩]⟩
    | (.thrown e, h1) =>
      ⟨.thrown e, h1, [⟨c.callee, c.receiver, [score, lives, level, phase]⟩]⟩

/-- The capability a host state stands for: bound to `window.updateUI` when the
host context exists and that value is callable, unbound in every other state. -/
def capabilityOf {σ : Type} (h : Host σ) : Option Capability :=
  match h.window with
  | none => none
  | some .undefined => none
  | some .null => none
  | some w => if isCallable (h.updateUI w) then some ⟨h.updateUI w, w⟩ else none

/-- Example host functions over a host whose remaining state is a log of
argument lists: function 0 appends its arguments to the log and returns 7,
function 1 throws the string `boom`, function 2 logs its arguments and then
removes itself from every `updateUI`; every other function returns
`undefined`. -/
def demoCall : CallSem (List (List Value))
  | .function 0, _, args, h => (.normal (.num 7), { h with rest := h.rest ++ [args] })
  | .function 1, _, _, h => (.thrown (.str "boom"), h)
  | .function 2, _, args, h =>
    (.normal .undefined, { h with updateUI := fun _ => .undefined, rest := h.rest ++ [args] })
  | _, _, _, h => (.normal .undefined, h)

/-- Example host: `window` is object 0 and its `updateUI` holds `f`; the log is
empty. -/
def demoHost (f : Value) : Host (List (List Value)) :=
  { window := some (.object 0)
    updateUI := fun v => match v with
      | .object 0 => f
      | _ => .undefined
    rest := [] }

/-- Example host without a `window` binding (headless run). -/
def headlessHost : Host (List (List Value)) :=
  { window := none, updateUI := fun _ => .undefined, rest := [] }

/-- Example host whose `window` is bound to `null`. -/
def nullWindowHost : Host (List (List Value)) :=
  { window := some .null, updateUI := fun _ => .undefined, rest := [] }

/-! ## Hosts whose reads run host code

In the embedding above a read of `window` or of `updateUI` is a plain lookup.
A JavaScript host may instead answer a read through an accessor or a proxy
trap, which can throw and can change the host. The second embedding of the
same function body below makes every read a host operation, so that such hosts
can be stated; `dataOps` recovers the first embedding from it. -/

/-- The operations of a host on a state of type `S`. `lookupWindow` resolves the
global identifier `window` and gets its value: `none` when the identifier does
not resolve, otherwise the completion of the read. `readProp v` is the property
read `v.updateUI` on a value other than `null` and `undefined`. `call` is the
call of a function value with a receiver and an argument list. Each operation
also yields the host state it leaves. -/
structure HostOps (S : Type) where
  lookupWindow : S → Option Completion × S
  readProp : Value → S → Completion × S
  call : Value → Value → List Value → S → Completion × S

/-- The result of evaluating the member expression `window.updateUI`: the base
value and the property value, or what was thrown on the way. -/
inductive Member where
  | value (base : Value) (prop : Value)
  | raised (e : Value)
  deriving DecidableEq, Repr

/-- What one run of the bridge amounts to over a state of type `S`. -/
structure Run (S : Type) where
  completion : Completion
  state : S
  calls : List CallEvent

/-- The member expression `window.updateUI`: `window` is looked up (a
`ReferenceError` when it does not resolve), then `updateUI` is read from its
value (a `TypeError` on `null` and `undefined`). -/
def evalMember {S : Type} (ops : HostOps S) (s : S) : Member × S :=
  match ops.lookupWindow s with
  | (none, s1) => (.raised (.error "ReferenceError"), s1)
  | (some (.thrown e), s1) => (.raised e, s1)
  | (some (.normal w), s1) =>
    match w with
    | .undefined => (.raised (.error "TypeError"), s1)
    | .null => (.raised (.error "TypeError"), s1)
    | v =>
      match ops.readProp v s1 with
      | (.thrown e, s2) => (.raised e, s2)
      | (.normal f, s2) => (.value v f, s2)

/-- The function `update_ui(score, lives, level, phase)` over host operations.
`typeof window` looks `window` up (yielding `undefined` when it does not
resolve, and raising when the lookup raises); `&&` evaluates `window.updateUI`
only when the tag is not `undefined`; when that value is truthy the call
expression evaluates `window.updateUI` again, checks the callee to be callable
and calls it with `window` as receiver. Nothing is caught. -/
def update_ui_ops {S : Type} (ops : HostOps S) (s : S)
    (score lives level phase : Value) : Run S :=
  match ops.lookupWindow s with
  | (none, s1) => ⟨.normal .undefined, s1, []⟩
  | (some (.thrown e), s1) => ⟨.thrown e, s1, []⟩
  | (some (.normal v), s1) =>
    if typeofValue v != .undefined then
      match evalMember ops s1 with
      | (.raised e, s2) => ⟨.thrown e, s2, []⟩
      | (.value _ t, s2) =>
        if toBoolean t then
          match evalMember ops s2 with
          | (.raised e, s3) => ⟨.thrown e, s3, []⟩
          | (.value w f, s3) =>
            if isCallable f then
              match ops.call f w [score, lives, level, phase] s3 with
              | (.normal _, s4) =>
                ⟨.normal .undefined, s4, [⟨f, w, [score, lives, level, phase]⟩]⟩
              | (.thrown e, s4) => ⟨.thrown e, s4, [⟨f, w, [score, lives, level, phase]⟩]⟩
            else
              ⟨.thrown (.error "TypeError"), s3, [⟨f, w, [score, lives, level, phase]⟩]⟩
        else
          ⟨.normal .undefined, s2, []⟩
    else
      ⟨.normal .undefined, s1, []⟩

/-- The host operations of a host with plain data bindings: the reads are the
lookups of the first embedding and leave the host as it is. -/
def dataOps {σ : Type} (call : CallSem σ) : HostOps (Host σ) :=
  { lookupWindow := fun h => (h.window.map Completion.normal, h)
    readProp := fun v h => (.normal (h.updateUI v), h)
    call := call }

/-- The reads of a host are plain in a state: looking `window` up and reading
`updateUI` run no host code there, so they neither raise nor change the
state. -/
def PlainReads {S : Type} (ops : HostOps S) (s : S) : Prop :=
  (∃ b : Option Value, ops.lookupWindow s = (b.map Completion.normal, s)) ∧
  ∀ v, ∃ f, ops.readProp v s = (.normal f, s)

/-- In state `s` the host context exists and exposes `f` under `updateUI`
through plain reads: `window` reads as `w`, a value with properties, and
`w.updateUI` reads as `f`, both without a change of state. -/
def ExposesAt {S : Type} (ops : HostOps S) (s : S) (w f : Value) : Prop :=
  ops.lookupWindow s = (some (.normal w), s) ∧ w ≠ .undefined ∧ w ≠ .null ∧
    ops.readProp w s = (.normal f, s)

/-- Example host over a counter of reads: `window` is object 0, and its
`updateUI` is an accessor that throws the string `denied` on every read. -/
def throwingAccessorOps : HostOps Nat :=
  { lookupWindow := fun n => (some (.normal (.object 0)), n)
    readProp := fun _ n => (.thrown (.str "denied"), n + 1)
    call := fun _ _ _ n => (.normal .undefined, n) }

/-- Example host over a counter of reads: the global `window` is an accessor
that throws the string `denied` on every lookup. -/
def throwingWindowOps : HostOps Nat :=
  { lookupWindow := fun n => (some (.thrown (.str "denied")), n + 1)
    readProp := fun _ n => (.normal .undefined, n)
    call := fun _ _ _ n => (.normal .undefined, n) }

/-- Example host over a counter of reads: `window` is object 0, and its
`updateUI` is an accessor that yields function 0 on the first read and
`undefined` on every later one. -/
def changingAccessorOps : HostOps Nat :=
  { lookupWindow := fun n => (some (.normal (.object 0)), n)
    readProp := fun _ n => (if n = 0 then .normal (.function 0) else .normal .undefined, n + 1)
    call := fun _ _ _ n => (.normal .undefined, n) }

/-! ## Shape lemmas for `update_ui` -/

/-- Without a host context the bridge does nothing. -/
theorem update_ui_of_absent {σ : Type} (call : CallSem σ) (h : Host σ)
    (score lives level phase : Value) (habs : WindowAbsent h) :
    update_ui call h score lives level phase = ⟨.normal .undefined, h, []⟩ := by
  unfold WindowAbsent at habs
  simp [update_ui, habs]

/-- With `window` bound to `null` the read of `window.updateUI` raises. -/
theorem update_ui_of_null {σ : Type} (call : CallSem σ) (h : Host σ)
    (score lives level phase : Value) (hw : h.window = some .null) :
    update_ui call h score lives level phase = ⟨.thrown (.error "TypeError"), h, []⟩ := by
  simp [update_ui, typeofWindow, readWindow, getUpdateUI, hw, typeofValue]

/-- The read `w.updateUI` on a value with properties. -/
theorem getUpdateUI_of_ne {σ : Type} (h : Host σ) (w : Value)
    (h1 : w ≠ .undefined) (h2 : w ≠ .null) :
    getUpdateUI h w = .normal (h.updateUI w) := by
  cases w <;> simp_all [getUpdateUI]

/-- The type tag of a value other than `undefined` is not `undefined`. -/
theorem typeofValue_ne_undefined (w : Value) (h1 : w ≠ .undefined) :
    typeofValue w ≠ .undefined := by
  cases w <;> simp_all [typeofValue]

/-- With a host context exposing a falsy `updateUI` the bridge does nothing. -/
theorem update_ui_of_falsy {σ : Type} (call : CallSem σ) (h : Host σ) (w f : Value)
    (score lives level phase : Value) (hexp : Exposes h w f) (hf : toBoolean f = false) :
    update_ui call h score lives level phase = ⟨.normal .undefined, h, []⟩ := by
  obtain ⟨hw, h1, h2, hu⟩ := hexp
  have ht := typeofValue_ne_undefined w h1
  simp [update_ui, typeofWindow, readWindow, hw, getUpdateUI_of_ne h w h1 h2, hu, hf, ht]

/-- With a host context exposing a truthy `updateUI` the bridge evaluates the
call expression. -/
theorem update_ui_of_truthy {σ : Type} (call : CallSem σ) (h : Host σ) (w f : Value)
    (score lives level phase : Value) (hexp : Exposes h w f) (hf : toBoolean f = true) :
    update_ui call h score lives level phase =
      if isCallable f then
        match call f w [score, lives, level, phase] h with
        | (.normal _, h1) => ⟨.normal .undefined, h1, [⟨f, w, [score, lives, level, phase]⟩]⟩
        | (.thrown e, h1) => ⟨.thrown e, h1, [⟨f, w, [score, lives, level, phase]⟩]⟩
      else
        ⟨.thrown (.error "TypeError"), h, [⟨f, w, [score, lives, level, phase]⟩]⟩ := by
  obtain ⟨hw, h1, h2, hu⟩ := hexp
  have ht := typeofValue_ne_undefined w h1
  simp [update_ui, callUpdateUI, typeofWindow, readWindow, hw, getUpdateUI_of_ne h w h1 h2, hu,
    hf, ht]

/-- Callable values are truthy. -/
theorem toBoolean_of_isCallable (f : Value) (hf : isCallable f = true) : toBoolean f = true := by
  cases f <;> simp_all [isCallable, toBoolean]

/-- Every host state is of one of four kinds: no host context, `window` bound
to `null`, or a host context exposing some value under `updateUI`. -/
theorem host_cases {σ : Type} (h : Host σ) :
    WindowAbsent h ∨ h.window = some .null ∨ ∃ w, Exposes h w (h.updateUI w) := by
  unfold WindowAbsent typeofWindow Exposes
  cases hw : h.window with
  | none => simp
  | some w =>
    by_cases h1 : w = .undefined
    · subst h1; simp [typeofValue]
    · by_cases h2 : w = .null
      · subst h2; simp
      · right; right; exact ⟨w, rfl, h1, h2, rfl⟩

/-- With `window` bound to `null` nothing is exposed. -/
theorem not_exposes_of_null {σ : Type} (h : Host σ) (hw : h.window = some .null) (w f : Value) :
    ¬ Exposes h w f := by
  rintro ⟨h0, _, h2, _⟩
  rw [hw] at h0
  exact h2 (Option.some.inj h0).symm

/-- Without a host context nothing is exposed. -/
theorem not_exposes_of_absent {σ : Type} (h : Host σ) (habs : WindowAbsent h) (w f : Value) :
    ¬ Exposes h w f := by
  rintro ⟨h0, h1, _, _⟩
  unfold WindowAbsent typeofWindow at habs
  rw [h0] at habs
  exact typeofValue_ne_undefined w h1 habs

/-- What is exposed is determined by the host state. -/
theorem exposes_unique {σ : Type} (h : Host σ) (w f w2 f2 : Value)
    (h1 : Exposes h w f) (h2 : Exposes h w2 f2) : w2 = w ∧ f2 = f := by
  obtain ⟨a, _, _, b⟩ := h1
  obtain ⟨c, _, _, d⟩ := h2
  rw [a] at c
  have hw : w = w2 := Option.some.inj c
  subst hw
  exact ⟨rfl, by rw [← d, b]⟩

/-- The completion of the bridge is `undefined` or a throw, in every host. -/
theorem update_ui_completion_cases {σ : Type} (call : CallSem σ) (h : Host σ)
    (score lives level phase : Value) :
    (update_ui call h score lives level phase).completion = .normal .undefined ∨
    ∃ e, (update_ui call h score lives level phase).completion = .thrown e := by
  rcases host_cases h with habs | hnull | ⟨w, hexp⟩
  · left; rw [update_ui_of_absent call h score lives level phase habs]
  · right; rw [update_ui_of_null call h score lives level phase hnull]; exact ⟨_, rfl⟩
  · cases ht : toBoolean (h.updateUI w) with
    | false => left; rw [update_ui_of_falsy call h w _ score lives level phase hexp ht]
    | true =>
      rw [update_ui_of_truthy call h w _ score lives level phase hexp ht]
      cases hf : isCallable (h.updateUI w) with
      | false => right; exact ⟨_, rfl⟩
      | true =>
        rcases hc : call (h.updateUI w) w [score, lives, level, phase] h with ⟨c, h1⟩
        cases c with
        | normal v => left; simp
        | thrown e => right; exact ⟨e, by simp⟩

/-! ## The claims -/

/-- C1: when the host context exists and exposes a callable `updateUI`, then for
every argument tuple `update_ui` evaluates exactly one call, that call reaches
the handler, its argument list is exactly `[score, lives, level, phase]` (same
values, same positions, four entries), and the host state afterwards is the one
that single run of the handler produces. -/
theorem update_ui_invokes_handler_once {σ : Type} (call : CallSem σ) (h : Host σ) (w f : Value)
    (score lives level phase : Value) (hexp : Exposes h w f) (hf : isCallable f = true) :
    (update_ui call h score lives level phase).calls = [⟨f, w, [score, lives, level, phase]⟩] ∧
    (update_ui call h score lives level phase).invocations =
      [⟨f, w, [score, lives, level, phase]⟩] ∧
    (update_ui call h score lives level phase).host =
      (call f w [score, lives, level, phase] h).2 := by
  rw [update_ui_of_truthy call h w f score lives level phase hexp (toBoolean_of_isCallable f hf)]
  rcases hc : call f w [score, lives, level, phase] h with ⟨c, h1⟩
  cases c <;> simp [hf, Outcome.invocations]

/-- C1 at the scenario of the specification, `update_ui(150, 3, 2, "boss")` with
a recording handler, and at the edge values `update_ui(0, 0, 0, "")`. -/
theorem update_ui_invokes_handler_once_witness :
    Exposes (demoHost (.function 0)) (.object 0) (.function 0) ∧
    isCallable (.function 0) = true ∧
    (update_ui demoCall (demoHost (.function 0)) (.num 150) (.num 3) (.num 2) (.str "boss")).calls
      = [⟨.function 0, .object 0, [.num 150, .num 3, .num 2, .str "boss"]⟩] ∧
    (update_ui demoCall (demoHost (.function 0)) (.num 0) (.num 0) (.num 0) (.str "")).calls
      = [⟨.function 0, .object 0, [.num 0, .num 0, .num 0, .str ""]⟩] :=
  ⟨⟨rfl, by decide, by decide, rfl⟩, rfl,
    (update_ui_invokes_handler_once demoCall (demoHost (.function 0)) (.object 0) (.function 0)
      (.num 150) (.num 3) (.num 2) (.str "boss") ⟨rfl, by decide, by decide, rfl⟩ rfl).1,
    (update_ui_invokes_handler_once demoCall (demoHost (.function 0)) (.object 0) (.function 0)
      (.num 0) (.num 0) (.num 0) (.str "") ⟨rfl, by decide, by decide, rfl⟩ rfl).1⟩

/-- C2 (counterexample): a host context can exist without an `updateUI` handler
and `update_ui` still fails. With `updateUI` bound to the number 1, and with
`window` bound to `null`, no handler is present, yet the scenario call
`update_ui(0, 0, 1, "start")` ends in a `TypeError` instead of returning. -/
theorem update_ui_noop_counterexample :
    handlerPresent (demoHost (.num 1)) = false ∧
    typeofWindow (demoHost (.num 1)) = .object ∧
    (update_ui demoCall (demoHost (.num 1)) (.num 0) (.num 0) (.num 1)
      (.str "start")).completion = .thrown (.error "TypeError") ∧
    handlerPresent nullWindowHost = false ∧
    typeofWindow nullWindowHost = .object ∧
    (update_ui demoCall nullWindowHost (.num 0) (.num 0) (.num 1)
      (.str "start")).completion = .thrown (.error "TypeError") :=
  ⟨rfl, rfl, rfl, rfl, rfl, rfl⟩

/-- C2 (amended): when the host context is absent (`typeof window` is
`undefined`), or exists, has properties, and its `updateUI` is missing (so that
it reads as `undefined`) or bound to another falsy value, then for every
argument tuple `update_ui` evaluates no call, leaves the host state as it was
and returns normally (with `undefined`). -/
theorem update_ui_noop_without_handler {σ : Type} (call : CallSem σ) (h : Host σ)
    (score lives level phase : Value)
    (hno : WindowAbsent h ∨ ∃ w f, Exposes h w f ∧ toBoolean f = false) :
    update_ui call h score lives level phase = ⟨.normal .undefined, h, []⟩ := by
  rcases hno with habs | ⟨w, f, hexp, hf⟩
  · exact update_ui_of_absent call h score lives level phase habs
  · exact update_ui_of_falsy call h w f score lives level phase hexp hf

/-- C2 (amended) at the scenario of the specification, `update_ui(0, 0, 1,
"start")` in a host without `window`, and at a host whose `window` has no
`updateUI` property. -/
theorem update_ui_noop_without_handler_witness :
    (WindowAbsent headlessHost ∨ ∃ w f, Exposes headlessHost w f ∧ toBoolean f = false) ∧
    update_ui demoCall headlessHost (.num 0) (.num 0) (.num 1) (.str "start") =
      ⟨.normal .undefined, headlessHost, []⟩ ∧
    Exposes (demoHost .undefined) (.object 0) .undefined ∧
    update_ui demoCall (demoHost .undefined) (.num 0) (.num 0) (.num 1) (.str "start") =
      ⟨.normal .undefined, demoHost .undefined, []⟩ :=
  ⟨Or.inl rfl,
    update_ui_noop_without_handler demoCall headlessHost (.num 0) (.num 0) (.num 1) (.str "start")
      (Or.inl rfl),
    ⟨rfl, by decide, by decide, rfl⟩,
    update_ui_noop_without_handler demoCall (demoHost .undefined) (.num 0) (.num 0) (.num 1)
      (.str "start")
      (Or.inr ⟨.object 0, .undefined, ⟨rfl, by decide, by decide, rfl⟩, rfl⟩)⟩

/-- C3 (counterexample): `update_ui` does have failure paths. With a handler
that throws the string `boom` the call `update_ui(150, 3, 2, "boss")` ends in
that very throw, and with `updateUI` bound to the number 1 it ends in a
`TypeError`. -/
theorem update_ui_raises_counterexample :
    (update_ui demoCall (demoHost (.function 1)) (.num 150) (.num 3) (.num 2)
      (.str "boss")).completion = .thrown (.str "boom") ∧
    (update_ui demoCall (demoHost (.num 1)) (.num 150) (.num 3) (.num 2)
      (.str "boss")).completion = .thrown (.error "TypeError") := by
  constructor <;> rfl

/-- C3 (amended): `update_ui` raises no error to its caller, and then returns
`undefined`, exactly in the host environments in which the context is absent,
or the context is present with `updateUI` missing or bound to a falsy value, or
`updateUI` is bound to a callable whose invocation on the four arguments
completes normally. In every other environment an error reaches the caller. -/
theorem update_ui_raises_nothing_amended {σ : Type} (call : CallSem σ) (h : Host σ)
    (score lives level phase : Value) :
    ((update_ui call h score lives level phase).completion.failed = false ↔
      (WindowAbsent h ∨ ∃ w f, Exposes h w f ∧ (toBoolean f = false ∨
        (isCallable f = true ∧ (call f w [score, lives, level, phase] h).1.failed = false)))) ∧
    ((update_ui call h score lives level phase).completion.failed = false →
      (update_ui call h score lives level phase).completion = .normal .undefined) := by
  constructor
  · constructor
    · intro hok
      rcases host_cases h with habs | hnull | ⟨w, hexp⟩
      · exact Or.inl habs
      · rw [update_ui_of_null call h score lives level phase hnull] at hok
        simp [Completion.failed] at hok
      · right
        refine ⟨w, _, hexp, ?_⟩
        cases ht : toBoolean (h.updateUI w) with
        | false => exact Or.inl rfl
        | true =>
          right
          rw [update_ui_of_truthy call h w _ score lives level phase hexp ht] at hok
          cases hf : isCallable (h.updateUI w) with
          | false => simp [hf, Completion.failed] at hok
          | true =>
            refine ⟨rfl, ?_⟩
            rcases hc : call (h.updateUI w) w [score, lives, level, phase] h with ⟨c, h1⟩
            cases c with
            | normal v => rfl
            | thrown e => simp [hf, hc, Completion.failed] at hok
    · rintro (habs | ⟨w, f, hexp, hf | ⟨hf, hok⟩⟩)
      · rw [update_ui_of_absent call h score lives level phase habs]; rfl
      · rw [update_ui_of_falsy call h w f score lives level phase hexp hf]; rfl
      · rw [update_ui_of_truthy call h w f score lives level phase hexp
          (toBoolean_of_isCallable f hf)]
        rcases hc : call f w [score, lives, level, phase] h with ⟨c, h1⟩
        rw [hc] at hok
        cases c <;> simp_all [Completion.failed]
  · intro hok
    rcases update_ui_completion_cases call h score lives level phase with hn | ⟨e, he⟩
    · exact hn
    · rw [he] at hok
      simp [Completion.failed] at hok

/-- C3 (amended) at a host with a recording handler that returns normally. -/
theorem update_ui_raises_nothing_amended_witness :
    (update_ui demoCall (demoHost (.function 0)) (.num 150) (.num 3) (.num 2)
      (.str "boss")).completion = .normal .undefined :=
  (update_ui_raises_nothing_amended demoCall (demoHost (.function 0)) (.num 150) (.num 3) (.num 2)
    (.str "boss")).2
    ((update_ui_raises_nothing_amended demoCall (demoHost (.function 0)) (.num 150) (.num 3)
      (.num 2) (.str "boss")).1.mpr
      (Or.inr ⟨.object 0, .function 0, ⟨rfl, by decide, by decide, rfl⟩, Or.inr ⟨rfl, rfl⟩⟩))

/-- C4 (counterexample): with `updateUI` bound to the number 1, a truthy value
that is not callable, `update_ui` does evaluate a call on it (which then
fails), although the host exposes no callable. -/
theorem update_ui_attempts_call_counterexample :
    (update_ui demoCall (demoHost (.num 1)) (.num 150) (.num 3) (.num 2) (.str "boss")).calls
      = [⟨.num 1, .object 0, [.num 150, .num 3, .num 2, .str "boss"]⟩] ∧
    isCallable (.num 1) = false ∧
    ¬ ((update_ui demoCall (demoHost (.num 1)) (.num 150) (.num 3) (.num 2) (.str "boss")).calls
        ≠ [] ↔ ∃ w f, Exposes (demoHost (.num 1)) w f ∧ isCallable f = true) := by
  refine ⟨rfl, rfl, ?_⟩
  intro hiff
  have hcalls : (update_ui demoCall (demoHost (.num 1)) (.num 150) (.num 3) (.num 2)
      (.str "boss")).calls ≠ [] := by
    have : (update_ui demoCall (demoHost (.num 1)) (.num 150) (.num 3) (.num 2)
      (.str "boss")).calls = [⟨.num 1, .object 0, [.num 150, .num 3, .num 2, .str "boss"]⟩] := rfl
    rw [this]; exact List.cons_ne_nil _ _
  obtain ⟨w, f, hexp, hf⟩ := hiff.mp hcalls
  have hu := exposes_unique (demoHost (.num 1)) (.object 0) (.num 1) w f
    ⟨rfl, by decide, by decide, rfl⟩ hexp
  rw [hu.2] at hf
  exact absurd hf (by decide)

/-- C4 (amended): `update_ui` evaluates a call on the host value `updateUI` if
and only if the host context exists and that value is truthy (callable or
not); the call reaches a function if and only if the value is callable. In
every other host state no call is evaluated. -/
theorem update_ui_attempts_call_iff_truthy {σ : Type} (call : CallSem σ) (h : Host σ)
    (score lives level phase : Value) :
    ((update_ui call h score lives level phase).calls ≠ [] ↔
      ∃ w f, Exposes h w f ∧ toBoolean f = true) ∧
    ((update_ui call h score lives level phase).invocations ≠ [] ↔
      ∃ w f, Exposes h w f ∧ isCallable f = true) := by
  rcases host_cases h with habs | hnull | ⟨w, hexp⟩
  · rw [update_ui_of_absent call h score lives level phase habs]
    constructor <;> constructor
    · intro hc; exact absurd rfl hc
    · rintro ⟨w, f, hexp, _⟩; exact absurd hexp (not_exposes_of_absent h habs w f)
    · intro hc; exact absurd rfl hc
    · rintro ⟨w, f, hexp, _⟩; exact absurd hexp (not_exposes_of_absent h habs w f)
  · rw [update_ui_of_null call h score lives level phase hnull]
    constructor <;> constructor
    · intro hc; exact absurd rfl hc
    · rintro ⟨w, f, hexp, _⟩; exact absurd hexp (not_exposes_of_null h hnull w f)
    · intro hc; exact absurd rfl hc
    · rintro ⟨w, f, hexp, _⟩; exact absurd hexp (not_exposes_of_null h hnull w f)
  · cases ht : toBoolean (h.updateUI w) with
    | false =>
      rw [update_ui_of_falsy call h w _ score lives level phase hexp ht]
      constructor <;> constructor
      · intro hc; exact absurd rfl hc
      · rintro ⟨w2, f2, hexp2, hf2⟩
        rw [(exposes_unique h w _ w2 f2 hexp hexp2).2, ht] at hf2
        exact absurd hf2 (by decide)
      · intro hc; exact absurd rfl hc
      · rintro ⟨w2, f2, hexp2, hf2⟩
        rw [(exposes_unique h w _ w2 f2 hexp hexp2).2] at hf2
        rw [toBoolean_of_isCallable _ hf2] at ht
        exact absurd ht (by decide)
    | true =>
      rw [update_ui_of_truthy call h w _ score lives level phase hexp ht]
      cases hf : isCallable (h.updateUI w) with
      | false =>
        refine ⟨⟨fun _ => ⟨w, _, hexp, ht⟩, fun _ => by simp⟩, ⟨?_, ?_⟩⟩
        · intro hc; simp [Outcome.invocations, hf] at hc
        · rintro ⟨w2, f2, hexp2, hf2⟩
          rw [(exposes_unique h w _ w2 f2 hexp hexp2).2, hf] at hf2
          exact absurd hf2 (by decide)
      | true =>
        rcases hc : call (h.updateUI w) w [score, lives, level, phase] h with ⟨c, h1⟩
        refine ⟨⟨fun _ => ⟨w, _, hexp, ht⟩, fun _ => ?_⟩, ⟨fun _ => ⟨w, _, hexp, hf⟩, fun _ => ?_⟩⟩
        · cases c <;> simp
        · cases c <;> simp [Outcome.invocations, hf]

/-- A present handler is an exposed callable. -/
theorem exposes_of_handlerPresent {σ : Type} (h : Host σ) (hp : handlerPresent h = true) :
    ∃ w, Exposes h w (h.updateUI w) ∧ isCallable (h.updateUI w) = true := by
  unfold handlerPresent at hp
  cases hw : h.window with
  | none => simp [hw] at hp
  | some w =>
    cases w <;> simp [hw] at hp <;> exact ⟨_, ⟨hw, by simp, by simp, rfl⟩, hp⟩

/-- With an exposed callable the bridge makes exactly one invocation. -/
theorem update_ui_invocations_of_callable {σ : Type} (call : CallSem σ) (h : Host σ)
    (w f : Value) (score lives level phase : Value) (hexp : Exposes h w f)
    (hf : isCallable f = true) :
    (update_ui call h score lives level phase).invocations =
      [⟨f, w, [score, lives, level, phase]⟩] := by
  rw [update_ui_of_truthy call h w f score lives level phase hexp (toBoolean_of_isCallable f hf)]
  rcases hc : call f w [score, lives, level, phase] h with ⟨c, h1⟩
  cases c <;> simp [hf, Outcome.invocations]

/-- C5: with a handler present in the host context at each call, calling
`update_ui` on each tuple of a finite list in sequence invokes the handler once
per call, so as many times as the list is long, and the i-th invocation
receives exactly the i-th tuple: the recorded invocations carry the input list,
in order. -/
theorem update_ui_seq_records_each_call {σ : Type} (call : CallSem σ) (ts : List Args)
    (h : Host σ) (hp : PresentThroughout call ts h) :
    (update_ui_seq call ts h).map (fun o => o.invocations.map CallEvent.args) =
      ts.map (fun a => [a.toList]) ∧
    (recordedCalls (update_ui_seq call ts h)).map CallEvent.args = ts.map Args.toList ∧
    (recordedCalls (update_ui_seq call ts h)).length = ts.length := by
  induction ts generalizing h with
  | nil => simp [update_ui_seq, recordedCalls]
  | cons a rest ih =>
    obtain ⟨hnow, hlater⟩ := hp
    obtain ⟨w, hexp, hf⟩ := exposes_of_handlerPresent h hnow
    have hone := update_ui_invocations_of_callable call h w _ a.score a.lives a.level a.phase
      hexp hf
    obtain ⟨ih1, ih2, ih3⟩ := ih _ hlater
    unfold recordedCalls at ih2 ih3
    refine ⟨?_, ?_, ?_⟩
    · simp only [update_ui_seq, List.map_cons, ih1, hone]
      rfl
    · simp only [update_ui_seq, recordedCalls, List.map_cons, List.flatten_cons, List.map_append,
        ih2, hone]
      rfl
    · simp only [update_ui_seq, recordedCalls, List.map_cons, List.flatten_cons,
        List.length_append, ih3, hone]
      simp [Nat.add_comm]

/-- C5 on two calls with a recording handler: both tuples arrive, in order, and
the host log holds them as well. -/
theorem update_ui_seq_records_each_call_witness :
    PresentThroughout demoCall
      [⟨.num 150, .num 3, .num 2, .str "boss"⟩, ⟨.num 0, .num 0, .num 0, .str ""⟩]
      (demoHost (.function 0)) ∧
    (recordedCalls (update_ui_seq demoCall
      [⟨.num 150, .num 3, .num 2, .str "boss"⟩, ⟨.num 0, .num 0, .num 0, .str ""⟩]
      (demoHost (.function 0)))).map CallEvent.args =
      [[.num 150, .num 3, .num 2, .str "boss"], [.num 0, .num 0, .num 0, .str ""]] :=
  ⟨⟨rfl, rfl, trivial⟩,
    (update_ui_seq_records_each_call demoCall
      [⟨.num 150, .num 3, .num 2, .str "boss"⟩, ⟨.num 0, .num 0, .num 0, .str ""⟩]
      (demoHost (.function 0)) ⟨rfl, rfl, trivial⟩).2.1⟩

/-- C6: `update_ui` produces no return value. In every host state and for every
argument tuple the value it reports to its caller is `undefined` whenever it
reports one (the only other completion is a raised error, which carries no
return value), and when a handler is present and returns a value `r`, the
result of `update_ui` is still `undefined`: `r` is discarded. -/
theorem update_ui_returns_undefined {σ : Type} (call : CallSem σ) (h : Host σ)
    (score lives level phase : Value) :
    ((update_ui call h score lives level phase).completion.returned = some .undefined ∨
      (update_ui call h score lives level phase).completion.returned = none) ∧
    (∀ w f r h1, Exposes h w f → isCallable f = true →
      call f w [score, lives, level, phase] h = (.normal r, h1) →
      (update_ui call h score lives level phase).completion = .normal .undefined) := by
  constructor
  · rcases update_ui_completion_cases call h score lives level phase with hn | ⟨e, he⟩
    · left; rw [hn]; rfl
    · right; rw [he]; rfl
  · intro w f r h1 hexp hf hc
    rw [update_ui_of_truthy call h w f score lives level phase hexp (toBoolean_of_isCallable f hf)]
    simp [hf, hc]

/-- C6 with a handler that returns 7: the caller of `update_ui` sees
`undefined`. -/
theorem update_ui_returns_undefined_witness :
    demoCall (.function 0) (.object 0) [.num 150, .num 3, .num 2, .str "boss"]
      (demoHost (.function 0)) =
      (.normal (.num 7), { demoHost (.function 0) with
        rest := [[.num 150, .num 3, .num 2, .str "boss"]] }) ∧
    (update_ui demoCall (demoHost (.function 0)) (.num 150) (.num 3) (.num 2)
      (.str "boss")).completion = .normal .undefined :=
  ⟨rfl, (update_ui_returns_undefined demoCall (demoHost (.function 0)) (.num 150) (.num 3) (.num 2)
    (.str "boss")).2 (.object 0) (.function 0) (.num 7) _ ⟨rfl, by decide, by decide, rfl⟩ rfl rfl⟩

/-- The calls the bridge evaluates, as a function of the host alone up to the
argument list. -/
theorem update_ui_calls_shape {σ : Type} (call : CallSem σ) (h : Host σ) :
    (∀ score lives level phase, (update_ui call h score lives level phase).calls = []) ∨
    ∃ w f, ∀ score lives level phase,
      (update_ui call h score lives level phase).calls = [⟨f, w, [score, lives, level, phase]⟩] := by
  rcases host_cases h with habs | hnull | ⟨w, hexp⟩
  · left; intro s l v p; rw [update_ui_of_absent call h s l v p habs]
  · left; intro s l v p; rw [update_ui_of_null call h s l v p hnull]
  · cases ht : toBoolean (h.updateUI w) with
    | false => left; intro s l v p; rw [update_ui_of_falsy call h w _ s l v p hexp ht]
    | true =>
      right
      refine ⟨w, h.updateUI w, ?_⟩
      intro s l v p
      rw [update_ui_of_truthy call h w _ s l v p hexp ht]
      cases hf : isCallable (h.updateUI w) with
      | false => simp
      | true =>
        rcases hc : call (h.updateUI w) w [s, l, v, p] h with ⟨c, h1⟩
        cases c <;> simp

/-- C7: whether `update_ui` dispatches depends on the host state only. For a
fixed host state and any two argument tuples the handler is invoked for both or
for neither, on the same callee and receiver; and whatever is called receives
the argument list exactly as given: nothing is checked, dropped or replaced. -/
theorem update_ui_dispatch_independent_of_args {σ : Type} (call : CallSem σ) (h : Host σ)
    (a b : Args) :
    ((update_ui call h a.score a.lives a.level a.phase).invocations = [] ↔
      (update_ui call h b.score b.lives b.level b.phase).invocations = []) ∧
    (update_ui call h a.score a.lives a.level a.phase).calls.map
        (fun ev => (ev.callee, ev.thisArg)) =
      (update_ui call h b.score b.lives b.level b.phase).calls.map
        (fun ev => (ev.callee, ev.thisArg)) ∧
    (update_ui call h a.score a.lives a.level a.phase).calls.map CallEvent.args =
      (update_ui call h a.score a.lives a.level a.phase).calls.map (fun _ => a.toList) := by
  rcases update_ui_calls_shape call h with hnone | ⟨w, f, hone⟩
  · simp [Outcome.invocations, hnone]
  · simp [Outcome.invocations, hone, Args.toList, List.filter_cons]

/-- C8: the bridge has no effect of its own on the host. When a handler is
present, the host state after `update_ui(score, lives, level, phase)` is exactly
the state one run of the handler on these arguments produces from the state
before the call; and whenever no handler runs, the host state (the `window`
binding, every `updateUI`, and the rest) is what it was. -/
theorem update_ui_frame {σ : Type} (call : CallSem σ) (h : Host σ)
    (score lives level phase : Value) :
    (∀ w f, Exposes h w f → isCallable f = true →
      (update_ui call h score lives level phase).host =
        (call f w [score, lives, level, phase] h).2) ∧
    ((update_ui call h score lives level phase).invocations = [] →
      (update_ui call h score lives level phase).host = h) := by
  constructor
  · intro w f hexp hf
    rw [update_ui_of_truthy call h w f score lives level phase hexp (toBoolean_of_isCallable f hf)]
    rcases hc : call f w [score, lives, level, phase] h with ⟨c, h1⟩
    cases c <;> simp [hf]
  · rcases host_cases h with habs | hnull | ⟨w, hexp⟩
    · intro _; rw [update_ui_of_absent call h score lives level phase habs]
    · intro _; rw [update_ui_of_null call h score lives level phase hnull]
    · cases ht : toBoolean (h.updateUI w) with
      | false => intro _; rw [update_ui_of_falsy call h w _ score lives level phase hexp ht]
      | true =>
        cases hf : isCallable (h.updateUI w) with
        | false =>
          intro _
          rw [update_ui_of_truthy call h w _ score lives level phase hexp ht]
          simp [hf]
        | true =>
          intro hinv
          rw [update_ui_invocations_of_callable call h w _ score lives level phase hexp hf] at hinv
          exact absurd hinv (List.cons_ne_nil _ _)

/-- C8 with the recording handler: after `update_ui(150, 3, 2, "boss")` the host
differs from the one before exactly by the log entry the handler wrote. -/
theorem update_ui_frame_witness :
    (update_ui demoCall (demoHost (.function 0)) (.num 150) (.num 3) (.num 2) (.str "boss")).host =
      (demoCall (.function 0) (.object 0) [.num 150, .num 3, .num 2, .str "boss"]
        (demoHost (.function 0))).2 ∧
    (update_ui demoCall headlessHost (.num 150) (.num 3) (.num 2) (.str "boss")).host =
      headlessHost :=
  ⟨(update_ui_frame demoCall (demoHost (.function 0)) (.num 150) (.num 3) (.num 2)
      (.str "boss")).1 (.object 0) (.function 0) ⟨rfl, by decide, by decide, rfl⟩ rfl,
    (update_ui_frame demoCall headlessHost (.num 150) (.num 3) (.num 2) (.str "boss")).2 rfl⟩

/-- Without a host context the capability is unbound. -/
theorem capabilityOf_of_absent {σ : Type} (h : Host σ) (habs : WindowAbsent h) :
    capabilityOf h = none := by
  unfold WindowAbsent typeofWindow at habs
  unfold capabilityOf
  cases hw : h.window with
  | none => rfl
  | some w =>
    rw [hw] at habs
    cases w <;> simp_all [typeofValue]

/-- The capability of a host that exposes `f`: bound exactly when `f` is
callable. -/
theorem capabilityOf_of_exposes {σ : Type} (h : Host σ) (w f : Value) (hexp : Exposes h w f) :
    capabilityOf h = if isCallable f then some ⟨f, w⟩ else none := by
  obtain ⟨hw, h1, h2, hu⟩ := hexp
  unfold capabilityOf
  rw [hw]
  cases w <;> simp_all

/-- C9 (counterexample): with `updateUI` bound to the number 1 the capability
is unbound (1 is not a callable), so the optional-capability model does
nothing and returns, while the code evaluates the call and raises a
`TypeError`. -/
theorem update_ui_optional_counterexample :
    capabilityOf (demoHost (.num 1)) = none ∧
    (update_ui_optional demoCall (capabilityOf (demoHost (.num 1))) (demoHost (.num 1))
      (.num 150) (.num 3) (.num 2) (.str "boss")).completion = .normal .undefined ∧
    (update_ui demoCall (demoHost (.num 1)) (.num 150) (.num 3) (.num 2)
      (.str "boss")).completion = .thrown (.error "TypeError") ∧
    (update_ui demoCall (demoHost (.num 1)) (.num 150) (.num 3) (.num 2)
      (.str "boss")).completion ≠
    (update_ui_optional demoCall (capabilityOf (demoHost (.num 1))) (demoHost (.num 1))
      (.num 150) (.num 3) (.num 2) (.str "boss")).completion := by
  refine ⟨rfl, rfl, rfl, ?_⟩
  intro heq
  have h1 : (update_ui demoCall (demoHost (.num 1)) (.num 150) (.num 3) (.num 2)
      (.str "boss")).completion = .thrown (.error "TypeError") := rfl
  have h2 : (update_ui_optional demoCall (capabilityOf (demoHost (.num 1))) (demoHost (.num 1))
      (.num 150) (.num 3) (.num 2) (.str "boss")).completion = .normal .undefined := rfl
  rw [h1, h2] at heq
  cases heq

/-- C9 (amended): in every host state in which the context is absent, or
exists and exposes an `updateUI` that is falsy or callable, and for every
argument tuple, the code and the optional-capability model have the same
outcome: the same completion, the same host state afterwards and the same
calls (the same handler with the same arguments, or none). -/
theorem update_ui_refines_optional_amended {σ : Type} (call : CallSem σ) (h : Host σ)
    (score lives level phase : Value)
    (hok : WindowAbsent h ∨
      ∃ w f, Exposes h w f ∧ (toBoolean f = false ∨ isCallable f = true)) :
    update_ui call h score lives level phase =
      update_ui_optional call (capabilityOf h) h score lives level phase := by
  rcases hok with habs | ⟨w, f, hexp, hf | hf⟩
  · rw [update_ui_of_absent call h score lives level phase habs, capabilityOf_of_absent h habs]
    rfl
  · have hnc : isCallable f = false := by
      cases hc : isCallable f with
      | false => rfl
      | true => rw [toBoolean_of_isCallable f hc] at hf; exact absurd hf (by decide)
    rw [update_ui_of_falsy call h w f score lives level phase hexp hf,
      capabilityOf_of_exposes h w f hexp]
    simp [hnc, update_ui_optional]
  · rw [update_ui_of_truthy call h w f score lives level phase hexp
      (toBoolean_of_isCallable f hf), capabilityOf_of_exposes h w f hexp]
    simp [hf, update_ui_optional]

/-- C9 (amended) at a host with a recording handler and at a headless host. -/
theorem update_ui_refines_optional_amended_witness :
    update_ui demoCall (demoHost (.function 0)) (.num 150) (.num 3) (.num 2) (.str "boss") =
      update_ui_optional demoCall (some ⟨.function 0, .object 0⟩) (demoHost (.function 0))
        (.num 150) (.num 3) (.num 2) (.str "boss") ∧
    update_ui demoCall headlessHost (.num 0) (.num 0) (.num 1) (.str "start") =
      update_ui_optional demoCall none headlessHost (.num 0) (.num 0) (.num 1) (.str "start") :=
  ⟨update_ui_refines_optional_amended demoCall (demoHost (.function 0)) (.num 150) (.num 3)
      (.num 2) (.str "boss")
      (Or.inr ⟨.object 0, .function 0, ⟨rfl, by decide, by decide, rfl⟩, Or.inr rfl⟩),
    update_ui_refines_optional_amended demoCall headlessHost (.num 0) (.num 0) (.num 1)
      (.str "start") (Or.inl rfl)⟩

/-- C10 (counterexample): with `window` bound to `null` the test
`typeof window !== "undefined"` passes (the type tag of `null` is `object`) and
the read `window.updateUI` raises a `TypeError`. So `update_ui` fails although
`window.updateUI` is neither a truthy non-callable value nor a callable whose
invocation fails: it has no value at all. -/
theorem update_ui_fails_counterexample :
    typeofWindow nullWindowHost = .object ∧
    (update_ui demoCall nullWindowHost (.num 150) (.num 3) (.num 2) (.str "boss")).completion =
      .thrown (.error "TypeError") ∧
    ¬ ∃ w f, Exposes nullWindowHost w f ∧ toBoolean f = true ∧
      (isCallable f = false ∨
        (demoCall f w [.num 150, .num 3, .num 2, .str "boss"] nullWindowHost).1.failed = true) := by
  refine ⟨rfl, rfl, ?_⟩
  rintro ⟨w, f, hexp, _⟩
  exact not_exposes_of_null nullWindowHost rfl w f hexp

/-- The member expression on a host that exposes `f` through plain reads. -/
theorem evalMember_of_exposesAt {S : Type} (ops : HostOps S) (s : S) (w f : Value)
    (hexp : ExposesAt ops s w f) : evalMember ops s = (.value w f, s) := by
  obtain ⟨hl, h1, h2, hr⟩ := hexp
  unfold evalMember
  rw [hl]
  cases w <;> simp_all

/-- The run on a host that exposes `f` through plain reads. -/
theorem update_ui_ops_of_exposesAt {S : Type} (ops : HostOps S) (s : S) (w f : Value)
    (score lives level phase : Value) (hexp : ExposesAt ops s w f) :
    update_ui_ops ops s score lives level phase =
      if toBoolean f then
        if isCallable f then
          match ops.call f w [score, lives, level, phase] s with
          | (.normal _, s4) => ⟨.normal .undefined, s4, [⟨f, w, [score, lives, level, phase]⟩]⟩
          | (.thrown e, s4) => ⟨.thrown e, s4, [⟨f, w, [score, lives, level, phase]⟩]⟩
        else
          ⟨.thrown (.error "TypeError"), s, [⟨f, w, [score, lives, level, phase]⟩]⟩
      else
        ⟨.normal .undefined, s, []⟩ := by
  have hem := evalMember_of_exposesAt ops s w f hexp
  have ht := typeofValue_ne_undefined w hexp.2.1
  unfold update_ui_ops
  rw [hexp.1]
  simp [ht, hem]

/-- The run on a host whose `window` reads as `null`. -/
theorem update_ui_ops_of_null {S : Type} (ops : HostOps S) (s : S)
    (score lives level phase : Value) (hl : ops.lookupWindow s = (some (.normal .null), s)) :
    update_ui_ops ops s score lives level phase = ⟨.thrown (.error "TypeError"), s, []⟩ := by
  simp [update_ui_ops, evalMember, hl, typeofValue]

/-- With plain reads a host state is of one of four kinds. -/
theorem plainReads_cases {S : Type} (ops : HostOps S) (s : S) (hp : PlainReads ops s) :
    ops.lookupWindow s = (none, s) ∨ ops.lookupWindow s = (some (.normal .undefined), s) ∨
    ops.lookupWindow s = (some (.normal .null), s) ∨ ∃ w f, ExposesAt ops s w f := by
  obtain ⟨⟨b, hb⟩, hr⟩ := hp
  cases b with
  | none => exact Or.inl hb
  | some w =>
    by_cases h1 : w = .undefined
    · subst h1; exact Or.inr (Or.inl hb)
    · by_cases h2 : w = .null
      · subst h2; exact Or.inr (Or.inr (Or.inl hb))
      · obtain ⟨f, hf⟩ := hr w
        exact Or.inr (Or.inr (Or.inr ⟨w, f, hb, h1, h2, hf⟩))

/-- What a host exposes through plain reads is determined by the state. -/
theorem exposesAt_unique {S : Type} (ops : HostOps S) (s : S) (w f w2 f2 : Value)
    (h1 : ExposesAt ops s w f) (h2 : ExposesAt ops s w2 f2) : w2 = w ∧ f2 = f := by
  obtain ⟨a, _, _, b⟩ := h1
  obtain ⟨c, _, _, d⟩ := h2
  rw [a] at c
  simp only [Prod.mk.injEq, Option.some.injEq, Completion.normal.injEq, and_true] at c
  subst c
  rw [b] at d
  simp only [Prod.mk.injEq, Completion.normal.injEq, and_true] at d
  exact ⟨rfl, d.symm⟩

/-- C10 (amended): the presence check is a truthiness test and the bridge
catches nothing. On a host whose reads of `window` and `updateUI` are plain
(they run no host code), `update_ui` fails exactly when `window` is `null` (the
read of `window.updateUI` raises a `TypeError`), or the host context exposes a
truthy `updateUI` that is either not callable (the call raises a `TypeError`)
or callable with a failing invocation on the four arguments; the value the
handler threw reaches the caller unchanged; and every falsy binding of
`updateUI` (`undefined`, `null`, `false`, `0`, the empty string) gives a no-op.
On any host, a lookup of `window` or a read of `updateUI` that itself raises
makes `update_ui` fail with what was raised. -/
theorem update_ui_ops_fails_iff {S : Type} (ops : HostOps S) (s : S)
    (score lives level phase : Value) :
    (PlainReads ops s →
      ((update_ui_ops ops s score lives level phase).completion.failed = true ↔
        (ops.lookupWindow s = (some (.normal .null), s) ∨
          ∃ w f, ExposesAt ops s w f ∧ toBoolean f = true ∧
            (isCallable f = false ∨
              (ops.call f w [score, lives, level, phase] s).1.failed = true)))) ∧
    (ops.lookupWindow s = (some (.normal .null), s) →
      (update_ui_ops ops s score lives level phase).completion =
        .thrown (.error "TypeError")) ∧
    (∀ w f, ExposesAt ops s w f → toBoolean f = true → isCallable f = false →
      (update_ui_ops ops s score lives level phase).completion =
        .thrown (.error "TypeError")) ∧
    (∀ w f e s1, ExposesAt ops s w f → isCallable f = true →
      ops.call f w [score, lives, level, phase] s = (.thrown e, s1) →
      (update_ui_ops ops s score lives level phase).completion = .thrown e) ∧
    (∀ w f, ExposesAt ops s w f →
      f ∈ [Value.undefined, Value.null, Value.bool false, Value.num 0, Value.str ""] →
      update_ui_ops ops s score lives level phase = ⟨.normal .undefined, s, []⟩) ∧
    (∀ e s1, ops.lookupWindow s = (some (.thrown e), s1) →
      (update_ui_ops ops s score lives level phase).completion = .thrown e) ∧
    (∀ w e s1, ops.lookupWindow s = (some (.normal w), s) → w ≠ .undefined → w ≠ .null →
      ops.readProp w s = (.thrown e, s1) →
      (update_ui_ops ops s score lives level phase).completion = .thrown e) := by
  refine ⟨?_, ?_, ?_, ?_, ?_, ?_, ?_⟩
  · intro hp
    rcases plainReads_cases ops s hp with hnone | hund | hnull | ⟨w, f, hexp⟩
    · have hrun : update_ui_ops ops s score lives level phase = ⟨.normal .undefined, s, []⟩ := by
        simp [update_ui_ops, hnone]
      rw [hrun]
      constructor
      · intro hc; simp [Completion.failed] at hc
      · rintro (hn | ⟨w, f, hexp, _⟩)
        · rw [hnone] at hn; simp at hn
        · have := hexp.1; rw [hnone] at this; simp at this
    · have hrun : update_ui_ops ops s score lives level phase = ⟨.normal .undefined, s, []⟩ := by
        simp [update_ui_ops, hund, typeofValue]
      rw [hrun]
      constructor
      · intro hc; simp [Completion.failed] at hc
      · rintro (hn | ⟨w, f, hexp, _⟩)
        · rw [hund] at hn; simp at hn
        · obtain ⟨hl, h1, _, _⟩ := hexp
          rw [hund] at hl
          simp only [Prod.mk.injEq, Option.some.injEq, Completion.normal.injEq, and_true] at hl
          exact absurd hl.symm h1
    · rw [update_ui_ops_of_null ops s score lives level phase hnull]
      exact ⟨fun _ => Or.inl hnull, fun _ => rfl⟩
    · have hnn : ops.lookupWindow s ≠ (some (.normal .null), s) := by
        intro hn
        obtain ⟨hl, _, h2, _⟩ := hexp
        rw [hn] at hl
        simp only [Prod.mk.injEq, Option.some.injEq, Completion.normal.injEq, and_true] at hl
        exact h2 hl.symm
      rw [update_ui_ops_of_exposesAt ops s w f score lives level phase hexp]
      cases ht : toBoolean f with
      | false =>
        constructor
        · intro hc; simp [Completion.failed] at hc
        · rintro (hn | ⟨w2, f2, hexp2, ht2, _⟩)
          · exact absurd hn hnn
          · rw [(exposesAt_unique ops s w f w2 f2 hexp hexp2).2, ht] at ht2
            exact absurd ht2 (by decide)
      | true =>
        cases hf : isCallable f with
        | false =>
          exact ⟨fun _ => Or.inr ⟨w, f, hexp, ht, Or.inl hf⟩, fun _ => rfl⟩
        | true =>
          rcases hc : ops.call f w [score, lives, level, phase] s with ⟨c, s4⟩
          cases c with
          | normal v =>
            constructor
            · intro hfail; simp [Completion.failed] at hfail
            · rintro (hn | ⟨w2, f2, hexp2, _, hnc | hth⟩)
              · exact absurd hn hnn
              · rw [(exposesAt_unique ops s w f w2 f2 hexp hexp2).2, hf] at hnc
                exact absurd hnc (by decide)
              · obtain ⟨e1, e2⟩ := exposesAt_unique ops s w f w2 f2 hexp hexp2
                rw [e1, e2, hc] at hth
                simp [Completion.failed] at hth
          | thrown e =>
            refine ⟨fun _ => Or.inr ⟨w, f, hexp, ht, Or.inr ?_⟩,
              fun _ => by simp [Completion.failed]⟩
            rw [hc]; rfl
  · intro hnull
    rw [update_ui_ops_of_null ops s score lives level phase hnull]
  · intro w f hexp ht hf
    rw [update_ui_ops_of_exposesAt ops s w f score lives level phase hexp]
    simp [ht, hf]
  · intro w f e s1 hexp hf hc
    rw [update_ui_ops_of_exposesAt ops s w f score lives level phase hexp]
    simp [toBoolean_of_isCallable f hf, hf, hc]
  · intro w f hexp hmem
    rw [update_ui_ops_of_exposesAt ops s w f score lives level phase hexp]
    simp only [List.mem_cons, List.mem_singleton, List.not_mem_nil, or_false] at hmem
    rcases hmem with rfl | rfl | rfl | rfl | rfl <;> rfl
  · intro e s1 hl
    simp [update_ui_ops, hl]
  · intro w e s1 hl h1 h2 hr
    have ht := typeofValue_ne_undefined w h1
    have hem : evalMember ops s = (.raised e, s1) := by
      unfold evalMember
      rw [hl]
      cases w <;> simp_all
    simp [update_ui_ops, hl, ht, hem]

/-- C10 (amended) on the plain host of the first embedding with a handler that
throws the string `boom`: the run fails, the caller receives that same thrown
value, and with `updateUI` bound to 0 the run is a no-op. -/
theorem update_ui_ops_fails_iff_witness :
    PlainReads (dataOps demoCall) (demoHost (.function 1)) ∧
    (update_ui_ops (dataOps demoCall) (demoHost (.function 1)) (.num 150) (.num 3) (.num 2)
      (.str "boss")).completion.failed = true ∧
    (update_ui_ops (dataOps demoCall) (demoHost (.function 1)) (.num 150) (.num 3) (.num 2)
      (.str "boss")).completion = .thrown (.str "boom") ∧
    update_ui_ops (dataOps demoCall) (demoHost (.num 0)) (.num 150) (.num 3) (.num 2)
      (.str "boss") = ⟨.normal .undefined, demoHost (.num 0), []⟩ :=
  ⟨⟨⟨some (.object 0), rfl⟩, fun _ => ⟨_, rfl⟩⟩,
    ((update_ui_ops_fails_iff (dataOps demoCall) (demoHost (.function 1)) (.num 150) (.num 3)
      (.num 2) (.str "boss")).1 ⟨⟨some (.object 0), rfl⟩, fun _ => ⟨_, rfl⟩⟩).mpr
      (Or.inr ⟨.object 0, .function 1, ⟨rfl, by decide, by decide, rfl⟩, rfl, Or.inr rfl⟩),
    (update_ui_ops_fails_iff (dataOps demoCall) (demoHost (.function 1)) (.num 150) (.num 3)
      (.num 2) (.str "boss")).2.2.2.1 (.object 0) (.function 1) (.str "boom")
      (demoHost (.function 1)) ⟨rfl, by decide, by decide, rfl⟩ rfl rfl,
    (update_ui_ops_fails_iff (dataOps demoCall) (demoHost (.num 0)) (.num 150) (.num 3)
      (.num 2) (.str "boss")).2.2.2.2.1 (.object 0) (.num 0) ⟨rfl, by decide, by decide, rfl⟩
      (by decide)⟩

/-- The reads of a host with plain data bindings are plain in every state. -/
theorem plainReads_dataOps {σ : Type} (call : CallSem σ) (h : Host σ) :
    PlainReads (dataOps call) h :=
  ⟨⟨h.window, rfl⟩, fun _ => ⟨_, rfl⟩⟩

/-- On a host with plain data bindings the embedding over host operations is
the first embedding: same completion, same host afterwards, same calls. -/
theorem update_ui_ops_dataOps {σ : Type} (call : CallSem σ) (h : Host σ)
    (score lives level phase : Value) :
    update_ui_ops (dataOps call) h score lives level phase =
      ⟨(update_ui call h score lives level phase).completion,
        (update_ui call h score lives level phase).host,
        (update_ui call h score lives level phase).calls⟩ := by
  rcases host_cases h with habs | hnull | ⟨w, hexp⟩
  · rw [update_ui_of_absent call h score lives level phase habs]
    unfold WindowAbsent typeofWindow at habs
    cases hw : h.window with
    | none => simp [update_ui_ops, dataOps, hw]
    | some v =>
      rw [hw] at habs
      have habs2 : typeofValue v = .undefined := habs
      simp [update_ui_ops, dataOps, hw, habs2]
  · rw [update_ui_of_null call h score lives level phase hnull]
    exact update_ui_ops_of_null (dataOps call) h score lives level phase
      (by simp [dataOps, hnull])
  · have hexp2 : ExposesAt (dataOps call) h w (h.updateUI w) :=
      ⟨by simp [dataOps, hexp.1], hexp.2.1, hexp.2.2.1, rfl⟩
    rw [update_ui_ops_of_exposesAt (dataOps call) h w _ score lives level phase hexp2]
    cases ht : toBoolean (h.updateUI w) with
    | false => rw [update_ui_of_falsy call h w _ score lives level phase hexp ht]; simp
    | true =>
      rw [update_ui_of_truthy call h w _ score lives level phase hexp ht]
      cases hf : isCallable (h.updateUI w) with
      | false => simp
      | true =>
        rcases hc : call (h.updateUI w) w [score, lives, level, phase] h with ⟨c, h1⟩
        have hc2 : (dataOps call).call (h.updateUI w) w [score, lives, level, phase] h
            = (c, h1) := hc
        cases c <;> simp [hc2]

/-- Reads that run host code give `update_ui` further ways to fail. An accessor
for `updateUI` that throws makes the guard raise; an accessor for the global
`window` that throws makes `typeof window` raise; and an accessor for
`updateUI` that yields a function on the first read and `undefined` on the
second passes the guard and then makes the call raise a `TypeError`. -/
theorem update_ui_ops_fails_on_reads :
    (update_ui_ops throwingAccessorOps 0 (.num 150) (.num 3) (.num 2) (.str "boss")).completion
      = .thrown (.str "denied") ∧
    (update_ui_ops throwingWindowOps 0 (.num 150) (.num 3) (.num 2) (.str "boss")).completion
      = .thrown (.str "denied") ∧
    (update_ui_ops changingAccessorOps 0 (.num 150) (.num 3) (.num 2) (.str "boss")).completion
      = .thrown (.error "TypeError") ∧
    (update_ui_ops changingAccessorOps 0 (.num 150) (.num 3) (.num 2) (.str "boss")).calls
      = [⟨.undefined, .object 0, [.num 150, .num 3, .num 2, .str "boss"]⟩] :=
  ⟨rfl, rfl, rfl, rfl⟩

/-- A handler that is present at the first call only: function 2 unbinds itself
while it runs, so the second call of a sequence finds no handler and invokes
nothing. Presence at each call is what the count of invocations rests on. -/
theorem presence_at_first_call_only :
    handlerPresent (demoHost (.function 2)) = true ∧
    (recordedCalls (update_ui_seq demoCall
      [⟨.num 150, .num 3, .num 2, .str "boss"⟩, ⟨.num 0, .num 0, .num 0, .str ""⟩]
      (demoHost (.function 2)))).map CallEvent.args =
      [[.num 150, .num 3, .num 2, .str "boss"]] := by
  constructor <;> rfl

/-- No capability of the kind the design notes allow (unbound, or bound to a
callable) makes the optional-capability model agree with the code on a host
whose `updateUI` is the number 1. -/
theorem no_capability_matches_noncallable (cap : Option Capability)
    (hcap : ∀ c, cap = some c → isCallable c.callee = true) :
    update_ui_optional demoCall cap (demoHost (.num 1)) (.num 150) (.num 3) (.num 2)
      (.str "boss") ≠
    update_ui demoCall (demoHost (.num 1)) (.num 150) (.num 3) (.num 2) (.str "boss") := by
  intro heq
  have hcalls := congrArg Outcome.calls heq
  have hcode : (update_ui demoCall (demoHost (.num 1)) (.num 150) (.num 3) (.num 2)
      (.str "boss")).calls = [⟨.num 1, .object 0, [.num 150, .num 3, .num 2, .str "boss"]⟩] := rfl
  rw [hcode] at hcalls
  cases cap with
  | none => simp [update_ui_optional] at hcalls
  | some c =>
    have hc := hcap c rfl
    rcases hr : demoCall c.callee c.receiver [.num 150, .num 3, .num 2, .str "boss"]
      (demoHost (.num 1)) with ⟨comp, h1⟩
    cases comp <;> simp [update_ui_optional, hr] at hcalls <;>
      (rw [hcalls.1] at hc; exact absurd hc (by decide))

end Pacman.UI
